import Mathlib

/-!
Verification of the terminol terminal-emulator core against its
natural-language specification.  Each namespace below is a shallow
embedding of one component of the source tree:

* `Damage`      — `Buffer::Damage` (src/terminol/common/buffer.hxx, lines 131-166)
* `TabStops`    — `Buffer::resetTabs` (buffer.hxx 390-394) and the Terminal's
                  own tab-stop initialisation (terminal.cxx 117-119, 836-838)
* `ConfigM`     — `Config::getSystemColor` (config.hxx 98-101)
* `MouseReport` — `Terminal::buttonPress` mouse reporting (terminal.cxx 210-239)

Machine integers are embedded as `Nat`/`Int`; the concrete values involved
are tiny relative to the 16/32-bit widths used by the source, and no
operation below is overflow-sensitive at the inputs the theorems consider.
-/

namespace DamageM

/-- Embedding of `Buffer::Damage`: a half-open per-row column interval.
The source stores `int16_t begin`/`end`; embedded as `Int`. -/
structure Damage where
  dbegin : Int
  dend   : Int
  deriving DecidableEq, Repr

/-- Initial state: no damage (`Damage() : begin(0), end(0)`). -/
def init : Damage := ⟨0, 0⟩

/-- Embedding of `Damage::damageSet` (buffer.hxx 139-144). -/
def damageSet (_d : Damage) (b e : Int) : Damage := ⟨b, e⟩

/-- Embedding of `Damage::damageAdd` (buffer.hxx 147-160): an empty addition
is a no-op; adding to an empty interval sets it; otherwise widen by min/max. -/
def damageAdd (d : Damage) (b e : Int) : Damage :=
  if b = e then d
  else if d.dbegin = d.dend then damageSet d b e
  else ⟨min d.dbegin b, max d.dend e⟩

end DamageM

namespace TabStops

/-- Embedding of `Buffer::resetTabs` (buffer.hxx 390-394):
`_tabs[i] = i % 8 == 0` for every column `i`. -/
def resetTabs (cols : Nat) : List Bool :=
  (List.range cols).map (fun i => i % 8 = 0)

/-- Embedding of the Terminal's tab-stop initialisation, performed in the
constructor (terminal.cxx 117-119), `resetAll` (836-838) and `resize`
(172-175): `_tabs[i] = (i + 1) % TAB_SIZE == 0` with `TAB_SIZE = 8`. -/
def terminalInitTabs (cols : Nat) : List Bool :=
  (List.range cols).map (fun i => (i + 1) % 8 = 0)

end TabStops

namespace ConfigM

/-- Size of `Config::_systemColors` (config.hxx 41): `Color _systemColors[16]`. -/
def systemColorsSize : Nat := 16

/-- Embedding of the precondition guard in `Config::getSystemColor`
(config.hxx 99): `ASSERT(index <= 16, "")`. -/
def getSystemColorGuard (index : Nat) : Bool := index ≤ 16

/-- Whether the array read `_systemColors[index]` performed by
`Config::getSystemColor` (config.hxx 100) is within bounds. -/
def systemColorReadInBounds (index : Nat) : Bool := index < systemColorsSize

end ConfigM

namespace MouseReport

/-- ASCII escape byte. -/
def ESC : Nat := 27

/-- The mouse buttons of `Terminal::Button`, with their enum values. -/
inductive Button | left | middle | right
  deriving DecidableEq

def Button.toNat : Button → Nat
  | .left => 0
  | .middle => 1
  | .right => 2

/-- The modifier keys consulted by `Terminal::buttonPress`. -/
structure Modifiers where
  shift   : Bool
  alt     : Bool
  control : Bool
  deriving DecidableEq

/-- The button code computed by `Terminal::buttonPress` (terminal.cxx
211-216): the button's enum value (offset by 61 from the fourth button on,
unreachable for the three-valued `Button`), plus modifier bits. -/
def buttonNum (button : Button) (m : Modifiers) : Nat :=
  let num  := button.toNat
  let num  := if num ≥ 3 then num + 64 - 3 else num
  let num  := if m.shift then num + 4 else num
  let num  := if m.alt then num + 8 else num
  if m.control then num + 16 else num

/-- The bytes `Terminal::buttonPress` (terminal.cxx 210-239) hands to
`write` when `MOUSE_BUTTON` is set, as a function of the SGR mode flag and
the 0-indexed pointer position.  In SGR form the coordinates are printed in
decimal (not modelled further here); in legacy form the report is
`ESC [ M` plus three bytes offset by 32, emitted only when
`pos.row < 223 && pos.col < 223`; otherwise nothing is written. -/
def buttonPressOutput (sgr : Bool) (button : Button) (m : Modifiers)
    (row col : Nat) (sgrBytes : List Nat) : List Nat :=
  if sgr then sgrBytes
  else if row < 223 ∧ col < 223 then
    [ESC, 91, 77, 32 + buttonNum button m, 32 + col + 1, 32 + row + 1]
  else
    []

/-- The legacy report bytes named by the claim: `ESC [ M` then the button
code, column and row, each offset by 32 and the coordinates 1-indexed. -/
def legacyReport (button : Button) (m : Modifiers) (row col : Nat) : List Nat :=
  [ESC, 91, 77, 32 + buttonNum button m, 32 + (col + 1), 32 + (row + 1)]

end MouseReport

/-! ## Theorems -/

/-- C7: for every `Damage` value with `begin ≤ end` and every
`damageAdd(b, e)` with `b ≤ e`, the result still satisfies `begin ≤ end`,
contains `[b, e)`, contains the prior interval when that was non-empty, and
an empty addition (`b = e`) leaves the damage unchanged. -/
theorem damageAdd_widens (d : DamageM.Damage) (b e : Int)
    (hd : d.dbegin ≤ d.dend) (hbe : b ≤ e) :
    (DamageM.damageAdd d b e).dbegin ≤ (DamageM.damageAdd d b e).dend ∧
    (b < e → (DamageM.damageAdd d b e).dbegin ≤ b ∧ e ≤ (DamageM.damageAdd d b e).dend) ∧
    (d.dbegin < d.dend →
      (DamageM.damageAdd d b e).dbegin ≤ d.dbegin ∧
      d.dend ≤ (DamageM.damageAdd d b e).dend) ∧
    (b = e → DamageM.damageAdd d b e = d) := by
  unfold DamageM.damageAdd DamageM.damageSet
  by_cases h1 : b = e
  · subst h1
    rw [if_pos rfl]
    exact ⟨hd, fun h => absurd h (lt_irrefl b), fun _ => ⟨le_refl _, le_refl _⟩,
           fun _ => rfl⟩
  · by_cases h2 : d.dbegin = d.dend
    · rw [if_neg h1, if_pos h2]
      exact ⟨hbe, fun _ => ⟨le_refl _, le_refl _⟩,
             fun hlt => absurd h2 (ne_of_lt hlt), fun h => absurd h h1⟩
    · rw [if_neg h1, if_neg h2]
      refine ⟨?_, fun _ => ⟨min_le_right _ _, le_max_right _ _⟩,
              fun _ => ⟨min_le_left _ _, le_max_left _ _⟩, fun h => absurd h h1⟩
      exact le_trans (min_le_left _ _) (le_trans hd (le_max_left _ _))

/-- Witness for `damageAdd_widens` at the concrete damage `[2, 5)` with
addition `[1, 7)`. -/
theorem damageAdd_widens_witness :
    (DamageM.damageAdd ⟨2, 5⟩ 1 7).dbegin ≤ (DamageM.damageAdd ⟨2, 5⟩ 1 7).dend ∧
    ((1 : Int) < 7 → (DamageM.damageAdd ⟨2, 5⟩ 1 7).dbegin ≤ 1 ∧ 7 ≤ (DamageM.damageAdd ⟨2, 5⟩ 1 7).dend) ∧
    ((2 : Int) < 5 →
      (DamageM.damageAdd ⟨2, 5⟩ 1 7).dbegin ≤ 2 ∧
      (5 : Int) ≤ (DamageM.damageAdd ⟨2, 5⟩ 1 7).dend) ∧
    ((1 : Int) = 7 → DamageM.damageAdd ⟨2, 5⟩ 1 7 = ⟨2, 5⟩) :=
  damageAdd_widens ⟨2, 5⟩ 1 7 (by decide) (by decide)

/-- C6 counterexample: at 8 columns the two reset operations produce
different tab-stop vectors — `Buffer::resetTabs` places the stop at
column 0, the Terminal's initialisation at column 7. -/
theorem resetTabs_ne_terminalInitTabs_at8 :
    TabStops.resetTabs 8 ≠ TabStops.terminalInitTabs 8 := by
  decide

/-- C6 amended: `Buffer::resetTabs` sets a stop exactly at the columns
divisible by 8, the Terminal's initialisation exactly at the columns
congruent to 7 mod 8; for every positive column count the two layouts
differ (already at column 0). -/
theorem resetTabs_vs_terminalInitTabs (cols : Nat) (hc : 0 < cols) :
    (∀ i (h : i < cols),
        (TabStops.resetTabs cols).get ⟨i, by simpa [TabStops.resetTabs] using h⟩ =
          decide (i % 8 = 0)) ∧
    (∀ i (h : i < cols),
        (TabStops.terminalInitTabs cols).get ⟨i, by simpa [TabStops.terminalInitTabs] using h⟩ =
          decide (i % 8 = 7)) ∧
    TabStops.resetTabs cols ≠ TabStops.terminalInitTabs cols := by
  refine ⟨?_, ?_, ?_⟩
  · intro i h
    simp [TabStops.resetTabs]
  · intro i h
    simp only [TabStops.terminalInitTabs, List.get_eq_getElem, List.getElem_map,
      List.getElem_range]
    rw [decide_eq_decide]
    omega
  · intro hEq
    rcases Nat.exists_eq_succ_of_ne_zero (Nat.pos_iff_ne_zero.mp hc) with ⟨n, rfl⟩
    have hhead := congrArg List.head? hEq
    simp [TabStops.resetTabs, TabStops.terminalInitTabs,
      List.range_succ_eq_map] at hhead

/-- Witness for `resetTabs_vs_terminalInitTabs` at 8 columns. -/
theorem resetTabs_vs_terminalInitTabs_witness :
    TabStops.resetTabs 8 ≠ TabStops.terminalInitTabs 8 :=
  (resetTabs_vs_terminalInitTabs 8 (by decide)).2.2

/-- C10: the guard `index <= 16` of `Config::getSystemColor` admits
`index = 16`, yet the read `_systemColors[16]` is out of bounds for the
16-entry array — the guard does not make an out-of-range access
unreachable. -/
theorem getSystemColor_guard_off_by_one :
    ConfigM.getSystemColorGuard 16 = true ∧
    ConfigM.systemColorReadInBounds 16 = false := by
  decide

/-- C4: with `MOUSE_BUTTON` on and `MOUSE_SGR` off, `Terminal::buttonPress`
emits the legacy report `ESC [ M` plus the three offset bytes exactly when
the 1-indexed coordinates are both at most 223, and emits nothing
otherwise. -/
theorem buttonPress_legacy_report (button : MouseReport.Button)
    (m : MouseReport.Modifiers) (row col : Nat) (sgrBytes : List Nat) :
    (MouseReport.buttonPressOutput false button m row col sgrBytes =
        MouseReport.legacyReport button m row col ↔
      col + 1 ≤ 223 ∧ row + 1 ≤ 223) ∧
    (¬(col + 1 ≤ 223 ∧ row + 1 ≤ 223) →
      MouseReport.buttonPressOutput false button m row col sgrBytes = []) := by
  unfold MouseReport.buttonPressOutput
  by_cases h : row < 223 ∧ col < 223
  · rw [if_neg Bool.false_ne_true, if_pos h]
    constructor
    · constructor
      · intro _
        exact ⟨by omega, by omega⟩
      · intro _
        simp [MouseReport.legacyReport, Nat.add_assoc]
    · intro hc
      exact absurd ⟨by omega, by omega⟩ hc
  · rw [if_neg Bool.false_ne_true, if_neg h]
    constructor
    · constructor
      · intro hEq
        exact absurd hEq.symm (by simp [MouseReport.legacyReport])
      · intro hc
        exact absurd ⟨by omega, by omega⟩ h
    · intro _
      rfl

/-- Witness for `buttonPress_legacy_report`: a left press with no modifiers
at position (3, 5) produces exactly the legacy bytes. -/
theorem buttonPress_legacy_report_witness :
    MouseReport.buttonPressOutput false MouseReport.Button.left ⟨false, false, false⟩ 3 5 [] =
      MouseReport.legacyReport MouseReport.Button.left ⟨false, false, false⟩ 3 5 :=
  (buttonPress_legacy_report MouseReport.Button.left ⟨false, false, false⟩ 3 5 []).1.2
    (by decide)

namespace WriteQueue

/-!
Embedding of the Terminal's outbound pty byte queue (`_writeBuffer`), the
`_dumpWrites` flag, `Terminal::write` (terminal.cxx 794-825),
`Terminal::flush` (445-461), and the DSR response path of
`Terminal::machineCsi` (1242-1291).

The pty is external: each call to `_tty.write` is modelled by consuming the
next element of a response list — `ok n` meaning "n bytes were accepted"
(`n = 0` is the would-block case) and `err` meaning `I_Tty::Error` was
thrown.  An exhausted response list behaves as would-block.
-/

/-- One outcome of a call to `I_Tty::write`. -/
inductive TtyResp
  | ok (n : Nat)
  | err
  deriving DecidableEq

/-- The write-path state of the Terminal: the `_dumpWrites` flag and the
`_writeBuffer` spill queue. -/
structure WState where
  dumpWrites  : Bool
  writeBuffer : List Nat
  deriving DecidableEq, Repr

/-- The inner loop of `Terminal::write` (terminal.cxx 800-804): repeatedly
call `_tty.write`, advancing past the accepted bytes, until everything is
written, the tty would block (`rval == 0`), or `I_Tty::Error` is thrown.
Returns the unwritten remainder, whether an error was thrown, and the bytes
actually handed to the pty. -/
def writeLoop : List TtyResp → List Nat → List Nat × Bool × List Nat
  | _, [] => ([], false, [])
  | [], data => (data, false, [])
  | TtyResp.err :: _, data => (data, true, [])
  | TtyResp.ok 0 :: _, data => (data, false, [])
  | TtyResp.ok (n + 1) :: rest, data =>
      let r := writeLoop rest (data.drop (n + 1))
      (r.1, r.2.1, data.take (n + 1) ++ r.2.2)

/-- Embedding of `Terminal::write` (terminal.cxx 794-825).  If
`_dumpWrites` is set, return immediately.  If the queue is empty, write
through the tty now and queue the remainder; on `I_Tty::Error` set
`_dumpWrites` and clear the queue.  Otherwise just append to the queue.
The second component is the bytes written to the pty. -/
def write (tty : List TtyResp) (s : WState) (data : List Nat) : WState × List Nat :=
  if s.dumpWrites then (s, [])
  else if s.writeBuffer = [] then
    match writeLoop tty data with
    | (_, true, written) => (⟨true, []⟩, written)
    | (remaining, false, written) =>
        ({ s with writeBuffer := s.writeBuffer ++ remaining }, written)
  else
    ({ s with writeBuffer := s.writeBuffer ++ data }, [])

/-- The loop of `Terminal::flush` (terminal.cxx 450-455): write the front
of `_writeBuffer` to the tty and erase what was accepted, until the buffer
is empty, the tty would block, or `I_Tty::Error` is thrown. -/
def flushLoop : List TtyResp → List Nat → List Nat × Bool × List Nat
  | _, [] => ([], false, [])
  | [], buf => (buf, false, [])
  | TtyResp.err :: _, buf => (buf, true, [])
  | TtyResp.ok 0 :: _, buf => (buf, false, [])
  | TtyResp.ok (n + 1) :: rest, buf =>
      let r := flushLoop rest (buf.drop (n + 1))
      (r.1, r.2.1, buf.take (n + 1) ++ r.2.2)

/-- Embedding of `Terminal::flush` (terminal.cxx 445-461): on
`I_Tty::Error` set `_dumpWrites` and clear the queue, else keep the
unwritten remainder. -/
def flush (tty : List TtyResp) (s : WState) : WState × List Nat :=
  match flushLoop tty s.writeBuffer with
  | (_, true, written) => (⟨true, []⟩, written)
  | (remaining, false, written) => ({ s with writeBuffer := remaining }, written)

/-- ASCII rendering of a decimal number, as produced by
`std::ostringstream operator<<` for a non-negative integer; the first
argument is fuel bounding the number of digits. -/
def natAsciiAux : Nat → Nat → List Nat
  | 0, _ => []
  | _ + 1, 0 => []
  | fuel + 1, n => natAsciiAux fuel (n / 10) ++ [48 + n % 10]

/-- Decimal ASCII digits of `n` (so `natAscii 13 = [49, 51]`). -/
def natAscii (n : Nat) : List Nat :=
  if n = 0 then [48] else natAsciiAux (n + 1) n

/-- The DSR-5 response bytes `ESC [ 0 n` (terminal.cxx 1253-1255). -/
def dsr5Response : List Nat := [27, 91, 48, 110]

/-- The DSR-6 cursor-position report `ESC [ row+1 ; col+1 R`
(terminal.cxx 1271-1273), 1-indexed. -/
def dsr6Response (row col : Nat) : List Nat :=
  [27, 91] ++ natAscii (row + 1) ++ [59] ++ natAscii (col + 1) ++ [82]

/-- Embedding of the `case 'n'` (DSR) branch of `Terminal::machineCsi`
(terminal.cxx 1242-1291) restricted to its effect on `_writeBuffer`:
both the DSR-5 and the DSR-6 response are inserted at the FRONT of the
queue (`_writeBuffer.insert(_writeBuffer.begin(), ...)`); `originMode`
subtracts the margin from the reported row.  Other argument values only
log. -/
def machineCsiDsr (writeBuffer : List Nat) (args : List Int)
    (cursorRow cursorCol : Nat) (originMode : Bool) (marginBegin : Nat) : List Nat :=
  match args with
  | [] => writeBuffer
  | a :: _ =>
    if a = 5 then dsr5Response ++ writeBuffer
    else if a = 6 then
      let row := if originMode then cursorRow - marginBegin else cursorRow
      dsr6Response row cursorCol ++ writeBuffer
    else writeBuffer

end WriteQueue

namespace RegexM

/-!
Embedding of `Regex::matchAllOffsets` (src/terminol/support/regex.hxx,
lines 99-121).  The pcre match primitive `common(text, size, offset)` is
abstracted as a function from the scan offset to the list of substring
offsets it returns (empty = no match); the subject text is fixed inside
that function.  The source loop has no fuel: the `fuel` argument below
exhausting (result `none`) means the source loop has run for at least that
many iterations without returning.
-/

/-- Embedding of `Regex::Substr` (regex.hxx 23-28). -/
structure Substr where
  first : Nat
  last  : Nat
  deriving DecidableEq, Repr

/-- The loop of `Regex::matchAllOffsets` (regex.hxx 102-118): call
`common` at the current offset; stop on no match; otherwise move the
offset to the end of the whole match, record the offsets, and stop when
the offset reaches the end of the text.  `none` means the given number of
iterations did not suffice. -/
def matchAllLoop (common : Nat → List Substr) (size : Nat) :
    Nat → Nat → List (List Substr) → Option (List (List Substr))
  | 0, _, _ => none
  | fuel + 1, offset, acc =>
    match common offset with
    | [] => some acc
    | o :: os =>
        let acc := acc ++ [o :: os]
        if o.last = size then some acc
        else matchAllLoop common size fuel o.last acc

/-- Termination of the `matchAllOffsets` scan loop: some number of
iterations suffices for it to return. -/
def loopTerminates (common : Nat → List Substr) (size : Nat) : Prop :=
  ∃ fuel result, matchAllLoop common size fuel 0 [] = some result

/-- The pcre behaviour of a pattern such as `"a*"` on the text `"b"`:
at every scan offset, `pcre_exec` reports a zero-width match starting and
ending at that offset. -/
def zeroWidthCommon : Nat → List Substr := fun offset => [⟨offset, offset⟩]

end RegexM

/-- C3: `Terminal::machineCsi` answers DSR queries by inserting the
response at the FRONT of `_writeBuffer` rather than appending: with one
byte already queued, a DSR-6 report issued at cursor (0,0) and then a
DSR-5 report leave the buffer as `DSR-5 ++ DSR-6 ++ old`, so the earlier
response sits AFTER the later one and the FIFO `flush` writes the later
response (and both responses jump the queued byte) first. -/
theorem machineCsiDsr_prepends :
    WriteQueue.machineCsiDsr
        (WriteQueue.machineCsiDsr [113] [6] 0 0 false 0) [5] 0 0 false 0 =
      WriteQueue.dsr5Response ++ WriteQueue.dsr6Response 0 0 ++ [113] ∧
    WriteQueue.machineCsiDsr [113] [6] 0 0 false 0 =
      WriteQueue.dsr6Response 0 0 ++ [113] := by
  constructor <;> rfl

/-- C8: on an `I_Tty::Error` during `Terminal::write` or `Terminal::flush`
the controller enters the drop-writes state with an empty queue, and once
`_dumpWrites` is set every later `write` call writes nothing to the pty
and leaves the (empty) queue empty.  The write conjunct speaks about a
state `s` whose queue is empty (only then does `Terminal::write` touch
the tty, terminal.cxx 797); the flush conjunct speaks about an arbitrary
state `u` — in the source `flush` runs with a non-empty queue
(`ASSERT(needsFlush())`), and only a non-empty queue can make `flushLoop`
error. -/
theorem write_error_drops (tty ttyF tty2 : List WriteQueue.TtyResp)
    (s u : WriteQueue.WState) (data data2 : List Nat)
    (hs : s.dumpWrites = false) (hq : s.writeBuffer = []) :
    ((WriteQueue.writeLoop tty data).2.1 = true →
        WriteQueue.write tty s data = (⟨true, []⟩, (WriteQueue.writeLoop tty data).2.2)) ∧
    ((WriteQueue.flushLoop ttyF u.writeBuffer).2.1 = true →
        WriteQueue.flush ttyF u = (⟨true, []⟩, (WriteQueue.flushLoop ttyF u.writeBuffer).2.2)) ∧
    (∀ t : WriteQueue.WState, t.dumpWrites = true → t.writeBuffer = [] →
        WriteQueue.write tty2 t data2 = (t, []) ∧
        (WriteQueue.write tty2 t data2).1.writeBuffer = []) := by
  refine ⟨?_, ?_, ?_⟩
  · intro herr
    unfold WriteQueue.write
    rw [if_neg (by simp [hs]), if_pos hq]
    rcases hloop : WriteQueue.writeLoop tty data with ⟨rem, errored, written⟩
    rw [hloop] at herr
    simp only at herr
    subst herr
    simp [hloop]
  · intro herr
    unfold WriteQueue.flush
    rcases hloop : WriteQueue.flushLoop ttyF u.writeBuffer with ⟨rem, errored, written⟩
    rw [hloop] at herr
    simp only at herr
    subst herr
    simp [hloop]
  · intro t ht htq
    have : WriteQueue.write tty2 t data2 = (t, []) := by
      unfold WriteQueue.write
      rw [if_pos (by simp [ht])]
    exact ⟨this, by rw [this, htq]⟩

/-- Witness for `write_error_drops`, exercising all three conjuncts: the
tty errors at the first `write` attempt; it errors during a `flush` of a
non-empty queue holding byte 65; and a later `write` in the drop-writes
state changes nothing and emits nothing. -/
theorem write_error_drops_witness :
    WriteQueue.write [WriteQueue.TtyResp.err] ⟨false, []⟩ [65] =
      (⟨true, []⟩, (WriteQueue.writeLoop [WriteQueue.TtyResp.err] [65]).2.2) ∧
    WriteQueue.flush [WriteQueue.TtyResp.err] ⟨false, [65]⟩ =
      (⟨true, []⟩, (WriteQueue.flushLoop [WriteQueue.TtyResp.err]
        (WriteQueue.WState.mk false [65]).writeBuffer).2.2) ∧
    WriteQueue.write [WriteQueue.TtyResp.ok 1] ⟨true, []⟩ [66] = (⟨true, []⟩, []) := by
  have h := write_error_drops [WriteQueue.TtyResp.err] [WriteQueue.TtyResp.err]
    [WriteQueue.TtyResp.ok 1] ⟨false, []⟩ ⟨false, [65]⟩ [65] [66] rfl rfl
  exact ⟨h.1 (by decide), h.2.1 (by decide), (h.2.2 ⟨true, []⟩ rfl rfl).1⟩

/-- C9: the scan loop of `Regex::matchAllOffsets` does NOT always
terminate: when the pattern yields a zero-width match at the current
offset (for example `"a*"` scanned over the text `"b"`, size 1), the
offset never advances and no number of iterations makes the loop return. -/
theorem matchAllOffsets_zero_width_diverges :
    ¬ RegexM.loopTerminates RegexM.zeroWidthCommon 1 := by
  have key : ∀ (fuel : Nat) (acc : List (List RegexM.Substr)),
      RegexM.matchAllLoop RegexM.zeroWidthCommon 1 fuel 0 acc = none := by
    intro fuel
    induction fuel with
    | zero => intro acc; rfl
    | succ n ih =>
      intro acc
      simp only [RegexM.matchAllLoop, RegexM.zeroWidthCommon]
      rw [if_neg (by decide)]
      exact ih _
  rintro ⟨fuel, result, hres⟩
  rw [key fuel []] at hres
  exact Option.noConfusion hres

namespace DrawM

/-!
Embedding of the per-row run-batching loop of `Terminal::draw`
(src/terminol/common/terminal.cxx, lines 658-737).  For one viewport row
the loop walks the repainted column interval `[colBegin, colEnd)`,
accumulating consecutive cells into a run; a run is flushed to
`terminalDrawRun` whenever the accumulator is empty or the next cell's
style differs from the run's current style.  When the REVERSE screen mode
is set, the style stored for a freshly started run has its fg/bg swapped
(terminal.cxx 717) — and it is this swapped style that is compared with
the following cell's unswapped style (line 706).
-/

/-- Embedding of `Style`: attribute set plus fg/bg colours (colours and
attribute sets reduced to numeric codes, which preserves equality). -/
structure Style where
  attrs : Nat
  fg    : Nat
  bg    : Nat
  deriving DecidableEq, Repr

/-- The fg/bg swap applied under REVERSE mode (terminal.cxx 717). -/
def swapFgBg (s : Style) : Style := ⟨s.attrs, s.bg, s.fg⟩

/-- Embedding of `Cell`: a non-empty UTF-8 byte sequence plus a style. -/
structure Cell where
  seq   : List Nat
  style : Style
  deriving DecidableEq, Repr

/-- One call to `I_Observer::terminalDrawRun`: start column, the style
passed (already fg/bg-swapped under REVERSE), and the cell count. -/
structure Run where
  pos   : Nat
  style : Style
  count : Nat
  deriving DecidableEq, Repr

/-- The column loop of `Terminal::draw` (terminal.cxx 702-736) for one
row: `fuel` is the number of columns left (`colEnd - c`), `c` the current
column, `run` the accumulated bytes, `cstart` the accumulation start
column and `style` the current run style.  On exit any non-empty
accumulator is flushed (lines 731-736). -/
def drawLoop (cells : Nat → Cell) (reverse : Bool) :
    Nat → Nat → List Nat → Nat → Style → List Run
  | 0, c, run, cstart, style =>
      if run = [] then [] else [⟨cstart, style, c - cstart⟩]
  | fuel + 1, c, run, cstart, style =>
      let cell := cells c
      if run = [] ∨ style ≠ cell.style then
        let flushed : List Run := if run = [] then [] else [⟨cstart, style, c - cstart⟩]
        let style2 := if reverse then swapFgBg cell.style else cell.style
        flushed ++ drawLoop cells reverse fuel (c + 1) cell.seq c style2
      else
        drawLoop cells reverse fuel (c + 1) (run ++ cell.seq) cstart style

/-- The `terminalDrawRun` calls made for one row over the repainted
interval `[colBegin, colEnd)`.  Initial state per terminal.cxx 668-669:
empty accumulator, start column 0, default style. -/
def drawRuns (cells : Nat → Cell) (reverse : Bool) (colBegin colEnd : Nat) : List Run :=
  drawLoop cells reverse (colEnd - colBegin) colBegin [] 0 ⟨0, 0, 0⟩

/-- Two adjacent cells of equal style, fg 1 on bg 0, as repainted with
REVERSE screen mode on. -/
def cexCells : Nat → Cell := fun _ => ⟨[65], ⟨0, 1, 0⟩⟩

/-- Distinctly styled cells for the witness: column 0 has fg 1, all other
columns fg 2. -/
def twoStyleCells : Nat → Cell := fun c =>
  if c = 0 then ⟨[65], ⟨0, 1, 0⟩⟩ else ⟨[66], ⟨0, 2, 0⟩⟩

end DrawM

/-- C5 counterexample: with REVERSE screen mode on, two horizontally
adjacent cells of EQUAL style (fg 1, bg 0) inside the repainted interval
are split across two `terminalDrawRun` calls, because the run's stored
style was fg/bg-swapped before being compared with the next cell's
unswapped style. -/
theorem draw_splits_equal_styles_under_reverse :
    (DrawM.cexCells 0).style = (DrawM.cexCells 1).style ∧
    DrawM.drawRuns DrawM.cexCells true 0 2 =
      [⟨0, ⟨0, 0, 1⟩, 1⟩, ⟨1, ⟨0, 0, 1⟩, 1⟩] := by
  constructor
  · rfl
  · rfl

/-- C5 amended: when REVERSE screen mode is off, the batching is as
claimed — within the repainted interval a run only ever starts at the
interval's first column or at a style change, so two adjacent cells of
equal style are never split across two `terminalDrawRun` calls.  (Cells
hold 1-4 UTF-8 bytes, hence the non-empty-sequence hypothesis.) -/
theorem draw_batches_equal_styles (cells : Nat → DrawM.Cell)
    (hne : ∀ c, (cells c).seq ≠ [])
    (colBegin colEnd : Nat) (r : DrawM.Run)
    (hr : r ∈ DrawM.drawRuns cells false colBegin colEnd)
    (hpos : colBegin < r.pos) :
    (cells (r.pos - 1)).style ≠ (cells r.pos).style := by
  have key : ∀ (fuel c : Nat) (run : List Nat) (cstart : Nat) (style : DrawM.Style),
      (run = [] → c = colBegin) →
      (run ≠ [] → colBegin ≤ cstart ∧ cstart < c ∧ style = (cells (c - 1)).style ∧
        (colBegin < cstart → (cells (cstart - 1)).style ≠ (cells cstart).style)) →
      ∀ s ∈ DrawM.drawLoop cells false fuel c run cstart style,
        colBegin < s.pos → (cells (s.pos - 1)).style ≠ (cells s.pos).style := by
    intro fuel
    induction fuel with
    | zero =>
      intro c run cstart style hemp hfull s hs hspos
      simp only [DrawM.drawLoop] at hs
      by_cases hrun : run = []
      · rw [if_pos hrun] at hs
        exact absurd hs (List.not_mem_nil s)
      · rw [if_neg hrun] at hs
        rcases List.mem_singleton.mp hs with rfl
        exact (hfull hrun).2.2.2 hspos
    | succ n ih =>
      intro c run cstart style hemp hfull s hs hspos
      simp only [DrawM.drawLoop] at hs
      by_cases hcond : run = [] ∨ style ≠ (cells c).style
      · rw [if_pos hcond] at hs
        rcases List.mem_append.mp hs with hflush | hrec
        · by_cases hrun : run = []
          · rw [if_pos hrun] at hflush
            exact absurd hflush (List.not_mem_nil s)
          · rw [if_neg hrun] at hflush
            rcases List.mem_singleton.mp hflush with rfl
            exact (hfull hrun).2.2.2 hspos
        · refine ih (c + 1) (cells c).seq c (cells c).style ?_ ?_ s hrec hspos
          · intro habs
            exact absurd habs (hne c)
          · intro _
            refine ⟨?_, Nat.lt_succ_self c, by simp, ?_⟩
            · by_cases hrun : run = []
              · exact (hemp hrun).symm.le
              · exact le_trans (hfull hrun).1 (le_of_lt (hfull hrun).2.1)
            · intro hcb
              have hrun : run ≠ [] := by
                intro habs
                exact absurd (hemp habs) (Nat.ne_of_gt hcb)
              have hst := (hfull hrun).2.2.1
              rcases hcond with hcond | hcond
              · exact absurd hcond hrun
              · rw [hst] at hcond
                exact hcond
      · rw [if_neg hcond] at hs
        push_neg at hcond
        have hrun : run ≠ [] := hcond.1
        refine ih (c + 1) (run ++ (cells c).seq) cstart style ?_ ?_ s hs hspos
        · intro habs
          exact absurd (List.append_eq_nil.mp habs).1 hrun
        · intro _
          have h := hfull hrun
          refine ⟨h.1, Nat.lt_succ_of_lt h.2.1, ?_, h.2.2.2⟩
          simpa using hcond.2
  have := key (colEnd - colBegin) colBegin [] 0 ⟨0, 0, 0⟩
    (fun _ => rfl) (fun habs => absurd rfl habs) r hr hpos
  exact this

/-- Witness for `draw_batches_equal_styles`: with REVERSE off and cells of
two different styles, the run starting at column 1 indeed sits at a style
change. -/
theorem draw_batches_equal_styles_witness :
    (DrawM.twoStyleCells 0).style ≠ (DrawM.twoStyleCells 1).style :=
  draw_batches_equal_styles DrawM.twoStyleCells
    (fun c => by unfold DrawM.twoStyleCells; by_cases h : c = 0 <;> simp [h])
    0 2 ⟨1, ⟨0, 2, 0⟩, 1⟩ (by decide) (by decide)

namespace GridM

/-!
The Buffer implementation used by terminal.cxx is not present under src/
(buffer.hxx only declares the class, among it
`write(utf8::Seq seq, bool autoWrap, bool insert)`), so the grid mutation
semantics below are modelled from spec sections 4.4.1 and 4.4.4.  Styles
are reduced to a numeric code (the scenario uses only the default style 0)
and a cell's 1-4 UTF-8 bytes to a single code point code, which preserves
equality of the ASCII cells the scenario writes.
-/

/-- A grid cell: character code plus style code. -/
structure Cell where
  ch    : Nat
  style : Nat
  deriving DecidableEq, Repr

/-- Modelled from the spec: `Cell::blank(style)` produces a space with the
given style (spec section 3). -/
def Cell.blank (style : Nat) : Cell := ⟨32, style⟩

/-- An active line: exactly `cols` cells plus the `continues_next` flag
(`ALine::cont` in buffer.hxx). -/
structure ALine where
  cells : List Cell
  cont  : Bool
  deriving DecidableEq, Repr

/-- A blank active line of `cols` cells. -/
def ALine.blank (cols : Nat) : ALine := ⟨List.replicate cols (Cell.blank 0), false⟩

/-- The buffer state the auto-wrap scenario exercises: the active region,
the cursor, the deferred-wrap flag and the margins.  `scrolled` counts the
rows pushed towards history by scrolling. -/
structure Buf where
  rows        : Nat
  cols        : Nat
  active      : List ALine
  cursorRow   : Nat
  cursorCol   : Nat
  wrapNext    : Bool
  marginBegin : Nat
  marginEnd   : Nat
  scrolled    : Nat
  deriving DecidableEq, Repr

/-- Replace row `r` using `f` (out-of-range rows are untouched). -/
def updateRow (rows : List ALine) (r : Nat) (f : ALine → ALine) : List ALine :=
  rows.set r (f (rows.getD r ⟨[], false⟩))

/-- Modelled from the spec: the viewport effect of scrolling one line off
the top when a new line is needed below a full margin area (spec section
4.4.1, steps 2 and 4): pop the top active line, push a blank line at the
bottom.  The paragraph store and pending buffer are not represented; the
scenario only observes the active region. -/
def addLine (b : Buf) : Buf :=
  { b with active := b.active.drop 1 ++ [ALine.blank b.cols], scrolled := b.scrolled + 1 }

/-- Set the cell at `(r, c)`. -/
def setCell (b : Buf) (r c : Nat) (cell : Cell) : Buf :=
  { b with active := updateRow b.active r (fun l => ⟨l.cells.set c cell, l.cont⟩) }

/-- Set the `continues_next` flag of row `r`. -/
def setCont (b : Buf) (r : Nat) : Buf :=
  { b with active := updateRow b.active r (fun l => ⟨l.cells, true⟩) }

/-- Shift the cells of the cursor row right at column `c` (INSERT mode):
a blank enters at `c`, the last cell falls off. -/
def insertCellAt (b : Buf) (r c : Nat) : Buf :=
  let shift := fun (l : ALine) =>
    ALine.mk ((l.cells.take c ++ [Cell.blank 0] ++ l.cells.drop c).take b.cols) l.cont
  { b with active := updateRow b.active r shift }

/-- Modelled from the spec: `Buffer::write(seq, auto_wrap, insert)` (spec
section 4.4.4, declared in buffer.hxx line 350 but implemented outside
src/).  It honours `wrap_next`: if set and AUTO_WRAP is on, either scroll
(cursor on the bottom margin row) or move the cursor to column 0 of the
next row, marking the just-completed active line's `continues_next` flag;
then, in INSERT mode, shift cells right at the cursor; place the new cell;
finally either set `wrap_next` (cursor at the last column) or advance. -/
def write (b : Buf) (ch : Nat) (autoWrap insert : Bool) (style : Nat) : Buf :=
  let b :=
    if b.wrapNext ∧ autoWrap then
      let completed := b.cursorRow
      let b := setCont b completed
      let b :=
        if completed = b.marginEnd - 1 then addLine b
        else { b with cursorRow := b.cursorRow + 1 }
      { b with cursorCol := 0, wrapNext := false }
    else b
  let b := if insert then insertCellAt b b.cursorRow b.cursorCol else b
  let b := setCell b b.cursorRow b.cursorCol ⟨ch, style⟩
  if b.cursorCol = b.cols - 1 then { b with wrapNext := true }
  else { b with cursorCol := b.cursorCol + 1 }

/-- Write a sequence of characters with AUTO_WRAP on, INSERT off, default
style. -/
def writeSeq (b : Buf) (chars : List Nat) : Buf :=
  chars.foldl (fun b ch => write b ch true false 0) b

/-- The scenario's initial state: an 80-column, 24-row grid, empty
history, default margins, cursor at the origin. -/
def init80x24 : Buf :=
  ⟨24, 80, List.replicate 24 (ALine.blank 80), 0, 0, false, 0, 24, 0⟩

/-- The final state after writing 80 copies of `'A'` followed by `'B'`. -/
def afterScenario : Buf := writeSeq init80x24 (List.replicate 80 65 ++ [66])

end GridM

set_option maxRecDepth 10000 in
/-- C2: on an 80x24 grid with AUTO_WRAP, writing 80 `'A'` characters and
then one `'B'` leaves row 0 holding `'A'` in all 80 cells with its
`continues_next` flag set, cell (1,0) holding `'B'`, and the cursor at
(1,1) with the deferred wrap consumed; nothing scrolled. -/
theorem autoWrap_scenario :
    GridM.afterScenario.active.head? =
      some ⟨List.replicate 80 ⟨65, 0⟩, true⟩ ∧
    (GridM.afterScenario.active.getD 1 ⟨[], false⟩).cells.head? = some ⟨66, 0⟩ ∧
    GridM.afterScenario.cursorRow = 1 ∧
    GridM.afterScenario.cursorCol = 1 ∧
    GridM.afterScenario.wrapNext = false ∧
    GridM.afterScenario.scrolled = 0 := by
  refine ⟨?_, ?_, ?_, ?_, ?_, ?_⟩ <;> decide

namespace TermM

/-!
Embedding of the cursor-position state machine of the Terminal controller
(src/terminol/common/terminal.cxx).  The state below is the projection of
the Terminal onto the fields that determine or constrain the cursor
position: grid dimensions, both buffers' margins, the AUTO_WRAP and
CR_ON_LF modes, the cursor and saved cursor, and the tab stops.  Fields
that never influence a cursor coordinate (cell contents, styles, charset
substitution tables, the write queue, selection, scroll offset) are not
represented, and operations of the source that only touch those fields
are embedded as the identity on this state.

`Pos` is not under src/ (data_types.hxx is absent); modelled from the
spec, section 3: `Pos = {row, col}`.  Positions handed to `moveCursor`
are computed with signed arithmetic so that expressions such as
`pos.up()` at row 0 stay faithful to the source's intent before the
clamp; the clamp makes the containment result independent of that
representation choice.

`Buffer` is also only declared under src/ (buffer.hxx); the margin
getters/setters and the cursor adjustment returned by `Buffer::resize`
are modelled from the spec (sections 4.4.2 step 5 and 4.4.5).
-/

/-- The cursor fields of `Terminal::Cursor` (terminal.hxx 74-97) that
bear on its position: `pos`, `wrapNext`, `originMode`. -/
structure Cursor where
  row        : Nat
  col        : Nat
  wrapNext   : Bool
  originMode : Bool
  deriving DecidableEq, Repr

/-- A buffer's scroll margins: `[mbegin, mend)`. -/
structure Margins where
  mbegin : Nat
  mend   : Nat
  deriving DecidableEq, Repr

/-- The cursor-relevant Terminal state. -/
structure St where
  rows        : Nat
  cols        : Nat
  priMargins  : Margins
  altMargins  : Margins
  useAlt      : Bool
  autoWrap    : Bool
  crOnLf      : Bool
  cursor      : Cursor
  savedCursor : Cursor
  tabs        : Nat → Bool

/-- Margins of the buffer currently pointed to by `_buffer`. -/
def margins (s : St) : Margins := if s.useAlt then s.altMargins else s.priMargins

/-- Modelled from the spec: `Buffer::getMarginBegin` (declared only). -/
def marginBegin (s : St) : Nat := (margins s).mbegin

/-- Modelled from the spec: `Buffer::getMarginEnd` (declared only). -/
def marginEnd (s : St) : Nat := (margins s).mend

/-- The `clamp` helper of the support library: clamp `v` into
`[lo, hi]`. -/
def clampI (v lo hi : Int) : Int := min (max v lo) hi

/-- Embedding of `Terminal::moveCursor` (terminal.cxx 551-565): clamp the
row into the margins when origin mode is on, else into `[0, rows)`; clamp
the column into `[0, cols)`; clear `wrapNext`.  (`damageCursor` touches
only damage state.) -/
def moveCursor (s : St) (row col : Int) : St :=
  let r :=
    if s.cursor.originMode then
      clampI row (marginBegin s) ((marginEnd s : Int) - 1)
    else
      clampI row 0 ((s.rows : Int) - 1)
  let c := clampI col 0 ((s.cols : Int) - 1)
  { s with cursor := ⟨r.toNat, c.toNat, false, s.cursor.originMode⟩ }

/-- Embedding of `Terminal::moveCursorOriginMode` (terminal.cxx 547-549):
offset the row by the margin begin when origin mode is on. -/
def moveCursorOriginMode (s : St) (row col : Int) : St :=
  moveCursor s (row + (if s.cursor.originMode then (marginBegin s : Int) else 0)) col

/-- The forward loop of `Terminal::tabCursor` (terminal.cxx 571-584):
advance the column to the `count`-th following tab stop, stopping at
`cols - 1`.  The source loop needs at most `cols - col` iterations (the
column strictly increases and the loop breaks at `cols`); `fuel` bounds
them. -/
def tabFwdLoop (tabs : Nat → Bool) (cols : Nat) : Nat → Nat → Nat → Nat
  | 0, _, col => col
  | fuel + 1, count, col =>
    if count = 0 then col
    else
      let col2 := col + 1
      if col2 = cols then col2 - 1
      else if tabs col2 then tabFwdLoop tabs cols fuel (count - 1) col2
      else tabFwdLoop tabs cols fuel count col2

/-- The backward loop of `Terminal::tabCursor` (terminal.cxx 585-597):
move the column back to the `count`-th preceding tab stop, stopping at
column 0. -/
def tabBwdLoop (tabs : Nat → Bool) (count col : Nat) : Nat :=
  if count = 0 then col
  else if h : col = 0 then col
  else if tabs (col - 1) then tabBwdLoop tabs (count - 1) (col - 1)
  else tabBwdLoop tabs count (col - 1)
termination_by col
decreasing_by
  all_goals omega

/-- Embedding of `Terminal::tabCursor` (terminal.cxx 567-601): compute
the target column and hand it to `moveCursor` at the current row. -/
def tabCursor (s : St) (forward : Bool) (count : Nat) : St :=
  let col :=
    if forward then tabFwdLoop s.tabs s.cols s.cols count s.cursor.col
    else tabBwdLoop s.tabs count s.cursor.col
  moveCursor s s.cursor.row col

/-- Embedding of `Terminal::resetAll` (terminal.cxx 827-844): clear the
buffer (no cursor effect), reset the modes to the constructor defaults,
reinitialise the tab stops, reset cursor and saved cursor. -/
def resetAll (s : St) : St :=
  { s with autoWrap := true, crOnLf := false,
           tabs := fun i => (i + 1) % 8 = 0,
           cursor := ⟨0, 0, false, false⟩,
           savedCursor := ⟨0, 0, false, false⟩ }

/-- Embedding of the cursor path of `Terminal::machineNormal`
(terminal.cxx 873-910): on a pending wrap with AUTO_WRAP, move to column
0 and either scroll (`Buffer::addLine`, no Terminal-cursor effect) at the
bottom margin row or move down; `insertCells`/`setCell` leave the cursor
alone; finally set `wrapNext` at the last column or advance. -/
def machineNormal (s : St) : St :=
  let s :=
    if s.cursor.wrapNext ∧ s.autoWrap then
      let s := moveCursor s (s.cursor.row : Int) 0
      if s.cursor.row = marginEnd s - 1 then s
      else moveCursor s ((s.cursor.row : Int) + 1) (s.cursor.col : Int)
    else s
  if s.cursor.col = s.cols - 1 then
    { s with cursor := { s.cursor with wrapNext := true } }
  else moveCursor s (s.cursor.row : Int) ((s.cursor.col : Int) + 1)

/-- Embedding of `Terminal::machineControl` (terminal.cxx 912-986) on the
cursor state: HT (9) tabs forward; BS (8) clears a pending wrap, else
moves left with reverse wrap under AUTO_WRAP; CR (13) moves to column 0;
LF (10, with CR_ON_LF also column 0) / VT (11) / FF (12) move down or
scroll at the bottom margin row.  The remaining control bytes have no
cursor effect. -/
def machineControl (s : St) (c : Nat) : St :=
  if c = 9 then tabCursor s true 1
  else if c = 8 then
    if s.cursor.wrapNext then { s with cursor := { s.cursor with wrapNext := false } }
    else if s.cursor.col = 0 then
      if s.autoWrap then
        if marginBegin s < s.cursor.row then
          moveCursor s ((s.cursor.row : Int) - 1) ((s.cols : Int) - 1)
        else s
      else s
    else moveCursor s (s.cursor.row : Int) ((s.cursor.col : Int) - 1)
  else if c = 13 then moveCursor s (s.cursor.row : Int) 0
  else if c = 10 ∨ c = 11 ∨ c = 12 then
    let s := if c = 10 ∧ s.crOnLf then moveCursor s (s.cursor.row : Int) 0 else s
    if s.cursor.row = marginEnd s - 1 then s
    else moveCursor s ((s.cursor.row : Int) + 1) (s.cursor.col : Int)
  else s

/-- Embedding of `Terminal::machineEscape` (terminal.cxx 988-1057) on the
cursor state: IND (D), NEL (E), HTS (H), RI (M), RIS (c), DECSC (7),
DECRC (8); DECKPAM/DECKPNM and the unimplemented escapes have no cursor
effect. -/
def machineEscape (s : St) (c : Nat) : St :=
  if c = 68 then
    if s.cursor.row = marginEnd s - 1 then s
    else moveCursor s ((s.cursor.row : Int) + 1) (s.cursor.col : Int)
  else if c = 69 then
    let s := moveCursor s (s.cursor.row : Int) 0
    if s.cursor.row = marginEnd s - 1 then s
    else moveCursor s ((s.cursor.row : Int) + 1) (s.cursor.col : Int)
  else if c = 72 then
    { s with tabs := fun i => if i = s.cursor.col then true else s.tabs i }
  else if c = 77 then
    if s.cursor.row = marginBegin s then s
    else moveCursor s ((s.cursor.row : Int) - 1) (s.cursor.col : Int)
  else if c = 99 then resetAll s
  else if c = 55 then { s with savedCursor := s.cursor }
  else if c = 56 then { s with cursor := s.savedCursor }
  else s

/-- Embedding of `nthArg` (terminal.cxx 13-15). -/
def nthArg (args : List Int) (n : Nat) (fallback : Int) : Int :=
  args.getD n fallback

/-- Embedding of `nthArgNonZero` (terminal.cxx 18-21). -/
def nthArgNonZero (args : List Int) (n : Nat) (fallback : Int) : Int :=
  let arg := nthArg args n fallback
  if arg ≠ 0 then arg else fallback

/-- Modelled from the spec: `Buffer::setMargins(begin, end)` (declared in
buffer.hxx 383; spec section 4.4.5 — requires `end > begin`, clamps to
`[0, rows]`, otherwise resets). -/
def setMarginsB (rows b e : Nat) : Margins :=
  let b := min b rows
  let e := min e rows
  if b < e then ⟨b, e⟩ else ⟨0, rows⟩

/-- Replace the active buffer's margins. -/
def withMargins (s : St) (m : Margins) : St :=
  if s.useAlt then { s with altMargins := m } else { s with priMargins := m }

/-- The save/restore shared by DECSC-style mode 1048 and the tail of 1049
(terminal.cxx 1884-1893). -/
def saveRestore (s : St) (setIt : Bool) : St :=
  if setIt then { s with savedCursor := s.cursor }
  else { s with cursor := s.savedCursor }

/-- Embedding of one argument of `Terminal::processModes` (terminal.cxx
1778-1925) on the cursor state: DECOM (private 6) sets origin mode and
re-homes the cursor; DECAWM (private 7) sets AUTO_WRAP; 47/1047/1049
switch the buffer (1049 also saves/restores the cursor); 1048
saves/restores the cursor; LNM (non-private 20) sets CR_ON_LF.  All other
modes leave this state unchanged. -/
def processMode (s : St) (priv setIt : Bool) (a : Int) : St :=
  if priv then
    if a = 6 then
      let s := { s with cursor := { s.cursor with originMode := setIt } }
      moveCursorOriginMode s 0 0
    else if a = 7 then { s with autoWrap := setIt }
    else if a = 1049 ∨ a = 47 ∨ a = 1047 then
      let s := { s with useAlt := setIt }
      if a = 1049 then saveRestore s setIt else s
    else if a = 1048 then saveRestore s setIt
    else s
  else
    if a = 20 then { s with crOnLf := setIt } else s

/-- Embedding of `Terminal::processModes`: fold over the argument list. -/
def processModes (s : St) (priv setIt : Bool) (args : List Int) : St :=
  args.foldl (fun s a => processMode s priv setIt a) s

/-- The DECSTBM branch (`case 'r'`) of `Terminal::machineCsi`
(terminal.cxx 1296-1323): with no arguments reset the margins and re-home;
otherwise clamp top and bottom into the grid, set the margins when
`bottom > top` and reset them otherwise, then re-home the cursor. -/
def csiDecstbm (s : St) (priv : Bool) (args : List Int) : St :=
  if priv then s
  else if args = [] then
    moveCursorOriginMode (withMargins s ⟨0, s.rows⟩) 0 0
  else
    let top := nthArgNonZero args 0 1 - 1
    let bottom := nthArgNonZero args 1 ((s.cursor.row : Int) + 1) - 1
    let top := clampI top 0 ((s.rows : Int) - 1)
    let bottom := clampI bottom 0 ((s.rows : Int) - 1)
    let s :=
      if top < bottom then withMargins s (setMarginsB s.rows top.toNat (bottom.toNat + 1))
      else withMargins s ⟨0, s.rows⟩
    moveCursorOriginMode s 0 0

/-- Embedding of `Terminal::machineCsi` (terminal.cxx 1059-1342) on the
cursor state, by final byte: the cursor-movement sequences call
`moveCursor`/`moveCursorOriginMode`/`tabCursor`; ED 2 homes the cursor
after clearing; DECSTBM ('r') sets or resets the margins and re-homes;
's'/'u' save/restore the cursor position; 'g' clears tab stops; 'h'/'l'
process modes.  The purely cell-level sequences (ICH, ED 0/1, EL, IL, DL,
DCH, SU, SD, ECH, SGR, DSR, DA) leave this state unchanged. -/
def machineCsi (s : St) (priv : Bool) (args : List Int) (mode : Nat) : St :=
  match mode with
  | 65 => moveCursor s ((s.cursor.row : Int) - nthArgNonZero args 0 1) (s.cursor.col : Int)
  | 66 => moveCursor s ((s.cursor.row : Int) + nthArgNonZero args 0 1) (s.cursor.col : Int)
  | 67 => moveCursor s (s.cursor.row : Int) ((s.cursor.col : Int) + nthArgNonZero args 0 1)
  | 68 => moveCursor s (s.cursor.row : Int) ((s.cursor.col : Int) - nthArgNonZero args 0 1)
  | 69 => moveCursor s ((s.cursor.row : Int) + nthArgNonZero args 0 1) 0
  | 70 => moveCursor s ((s.cursor.row : Int) - nthArgNonZero args 0 1) 0
  | 71 => moveCursor s (s.cursor.row : Int) (nthArgNonZero args 0 1 - 1)
  | 102 => moveCursorOriginMode s (nthArg args 0 1 - 1) (nthArg args 1 1 - 1)
  | 72 => moveCursorOriginMode s (nthArg args 0 1 - 1) (nthArg args 1 1 - 1)
  | 73 => tabCursor s true (nthArg args 0 1).toNat
  | 74 => if nthArg args 0 0 = 2 then moveCursor s 0 0 else s
  | 90 => tabCursor s false (nthArgNonZero args 0 1).toNat
  | 96 => moveCursor s (s.cursor.row : Int) (nthArgNonZero args 0 1 - 1)
  | 100 => moveCursorOriginMode s (nthArg args 0 1 - 1) (s.cursor.col : Int)
  | 103 =>
    if nthArg args 0 0 = 0 then
      { s with tabs := fun i => if i = s.cursor.col then false else s.tabs i }
    else if nthArg args 0 0 = 3 then { s with tabs := fun _ => false }
    else s
  | 104 => processModes s priv true args
  | 108 => processModes s priv false args
  | 114 => csiDecstbm s priv args
  | 115 =>
    { s with savedCursor := ⟨s.cursor.row, s.cursor.col,
                            s.savedCursor.wrapNext, s.savedCursor.originMode⟩ }
  | 117 => moveCursor s (s.savedCursor.row : Int) (s.savedCursor.col : Int)
  | _ => s

/-- Embedding of `Terminal::resize` (terminal.cxx 126-176).  The cursor
row adjustments returned by `Buffer::resize` (not under src/) are
modelled from the spec (section 4.4.2 step 5, "clamp cursor to the new
dimensions"); on top of that the source itself clamps the columns and
forces `row < rows`.  The margins, owned by the resized buffers, are
modelled as reset to the full screen, and the tab vector is
reinitialised (terminal.cxx 172-175). -/
def resize (s : St) (rows2 cols2 : Nat) : St :=
  let cur := s.cursor
  let cur := if cur.wrapNext ∧ ¬(cur.col = cols2 - 1) then { cur with wrapNext := false } else cur
  let newRow := min cur.row (rows2 - 1)
  let newRow := if newRow < rows2 then newRow else rows2 - 1
  let newCol := min cur.col (cols2 - 1)
  let savedRow := min s.savedCursor.row (rows2 - 1)
  let savedCol := min newCol (cols2 - 1)
  { s with rows := rows2, cols := cols2,
           priMargins := ⟨0, rows2⟩, altMargins := ⟨0, rows2⟩,
           cursor := { cur with row := newRow, col := newCol },
           savedCursor := { s.savedCursor with row := savedRow, col := savedCol },
           tabs := fun i => (i + 1) % 8 = 0 }

/-- A public Terminal operation.  `normal`, `control`, `escape`, `csi`,
`osc`, `dcs` and `special` are the events a chunk of pty bytes decodes
into (`Terminal::processRead`); `resize` and the UI events are the other
public entry points.  `machineOsc`, `machineDcs` and `machineSpecial`
never move the cursor (DECALN only fills cells, charset designations only
swap tables), and the key/button/scroll/paste/redraw handlers only touch
selection, scroll offset and the write path, so those map to the identity
on this state. -/
inductive Op
  | normal
  | control (c : Nat)
  | escape (c : Nat)
  | csi (priv : Bool) (args : List Int) (mode : Nat)
  | osc
  | dcs
  | special
  | resize (rows cols : Nat)
  | keyPress
  | buttonPress
  | buttonMotion
  | buttonRelease
  | scrollWheel
  | paste
  | redraw

/-- One public operation. -/
def step (s : St) : Op → St
  | .normal => machineNormal s
  | .control c => machineControl s c
  | .escape c => machineEscape s c
  | .csi priv args mode => machineCsi s priv args mode
  | .resize r c => resize s r c
  | _ => s

/-- The precondition of an operation: `Terminal::resize` asserts positive
dimensions (terminal.cxx 129); everything else is unconditional. -/
def OpValid : Op → Prop
  | .resize r c => 0 < r ∧ 0 < c
  | _ => True

/-- Run a sequence of operations. -/
def run (s : St) (ops : List Op) : St := ops.foldl step s

/-- The Terminal invariant the claim quantifies: positive dimensions,
valid margins on both buffers (spec section 3), and cursor and saved
cursor inside the grid. -/
def Inv (s : St) : Prop :=
  0 < s.rows ∧ 0 < s.cols ∧
  s.priMargins.mbegin < s.priMargins.mend ∧ s.priMargins.mend ≤ s.rows ∧
  s.altMargins.mbegin < s.altMargins.mend ∧ s.altMargins.mend ≤ s.rows ∧
  s.cursor.row < s.rows ∧ s.cursor.col < s.cols ∧
  s.savedCursor.row < s.rows ∧ s.savedCursor.col < s.cols

instance (s : St) : Decidable (Inv s) := by
  unfold Inv
  infer_instance

/-- The state built by `Terminal::Terminal` (terminal.cxx 75-120). -/
def initSt (rows cols : Nat) : St :=
  ⟨rows, cols, ⟨0, rows⟩, ⟨0, rows⟩, false, true, false,
   ⟨0, 0, false, false⟩, ⟨0, 0, false, false⟩, fun i => (i + 1) % 8 = 0⟩

end TermM

namespace TermM

lemma margins_ok {s : St} (h : Inv s) :
    marginBegin s < marginEnd s ∧ marginEnd s ≤ s.rows := by
  obtain ⟨_, _, h3, h4, h5, h6, _⟩ := h
  unfold marginBegin marginEnd margins
  by_cases hu : s.useAlt
  · simp only [hu, if_true]
    exact ⟨h5, h6⟩
  · simp only [hu, if_false]
    exact ⟨h3, h4⟩

lemma moveCursor_inv {s : St} (h : Inv s) (row col : Int) :
    Inv (moveCursor s row col) := by
  have hm := margins_ok h
  obtain ⟨h1, h2, h3, h4, h5, h6, h7, h8, h9, h10⟩ := h
  obtain ⟨hm1, hm2⟩ := hm
  unfold moveCursor clampI
  by_cases hom : s.cursor.originMode
  · simp only [hom, if_true]
    refine ⟨h1, h2, h3, h4, h5, h6, ?_, ?_, h9, h10⟩ <;> · dsimp only; omega
  · simp only [hom, if_false]
    refine ⟨h1, h2, h3, h4, h5, h6, ?_, ?_, h9, h10⟩ <;> · dsimp only; omega

lemma moveCursorOriginMode_inv {s : St} (h : Inv s) (row col : Int) :
    Inv (moveCursorOriginMode s row col) := by
  unfold moveCursorOriginMode
  exact moveCursor_inv h _ _

lemma tabCursor_inv {s : St} (h : Inv s) (forward : Bool) (count : Nat) :
    Inv (tabCursor s forward count) := by
  unfold tabCursor
  exact moveCursor_inv h _ _

lemma resetAll_inv {s : St} (h : Inv s) : Inv (resetAll s) := by
  obtain ⟨h1, h2, h3, h4, h5, h6, _⟩ := h
  exact ⟨h1, h2, h3, h4, h5, h6, h1, h2, h1, h2⟩

lemma save_inv {s : St} (h : Inv s) : Inv { s with savedCursor := s.cursor } := by
  obtain ⟨h1, h2, h3, h4, h5, h6, h7, h8, _, _⟩ := h
  exact ⟨h1, h2, h3, h4, h5, h6, h7, h8, h7, h8⟩

lemma restore_inv {s : St} (h : Inv s) : Inv { s with cursor := s.savedCursor } := by
  obtain ⟨h1, h2, h3, h4, h5, h6, _, _, h9, h10⟩ := h
  exact ⟨h1, h2, h3, h4, h5, h6, h9, h10, h9, h10⟩

lemma saveRestore_inv {s : St} (h : Inv s) (b : Bool) : Inv (saveRestore s b) := by
  unfold saveRestore
  split
  · exact save_inv h
  · exact restore_inv h

lemma savedPos_inv {s : St} (h : Inv s) :
    Inv { s with savedCursor := ⟨s.cursor.row, s.cursor.col,
                                 s.savedCursor.wrapNext, s.savedCursor.originMode⟩ } := by
  obtain ⟨h1, h2, h3, h4, h5, h6, h7, h8, _, _⟩ := h
  exact ⟨h1, h2, h3, h4, h5, h6, h7, h8, h7, h8⟩

lemma withMargins_inv {s : St} (h : Inv s) {m : Margins}
    (hm : m.mbegin < m.mend ∧ m.mend ≤ s.rows) : Inv (withMargins s m) := by
  obtain ⟨h1, h2, h3, h4, h5, h6, h7, h8, h9, h10⟩ := h
  unfold withMargins
  split
  · exact ⟨h1, h2, h3, h4, hm.1, hm.2, h7, h8, h9, h10⟩
  · exact ⟨h1, h2, hm.1, hm.2, h5, h6, h7, h8, h9, h10⟩

lemma setMarginsB_ok (rows b e : Nat) (hrows : 0 < rows) :
    (setMarginsB rows b e).mbegin < (setMarginsB rows b e).mend ∧
    (setMarginsB rows b e).mend ≤ rows := by
  unfold setMarginsB
  dsimp only
  split
  · refine ⟨?_, ?_⟩ <;> (dsimp only; omega)
  · exact ⟨hrows, le_refl rows⟩

lemma csiDecstbm_inv {s : St} (h : Inv s) (priv : Bool) (args : List Int) :
    Inv (csiDecstbm s priv args) := by
  have hrows : 0 < s.rows := h.1
  unfold csiDecstbm
  split
  · exact h
  · split
    · exact moveCursorOriginMode_inv (withMargins_inv h ⟨hrows, le_refl _⟩) _ _
    · dsimp only
      split
      · exact moveCursorOriginMode_inv
          (withMargins_inv h (setMarginsB_ok s.rows _ _ hrows)) _ _
      · exact moveCursorOriginMode_inv (withMargins_inv h ⟨hrows, le_refl _⟩) _ _

lemma processMode_inv {s : St} (h : Inv s) (priv setIt : Bool) (a : Int) :
    Inv (processMode s priv setIt a) := by
  have hom : Inv { s with cursor := { s.cursor with originMode := setIt } } := by
    obtain ⟨h1, h2, h3, h4, h5, h6, h7, h8, h9, h10⟩ := h
    exact ⟨h1, h2, h3, h4, h5, h6, h7, h8, h9, h10⟩
  have hua : Inv { s with useAlt := setIt } := by
    obtain ⟨h1, h2, h3, h4, h5, h6, h7, h8, h9, h10⟩ := h
    exact ⟨h1, h2, h3, h4, h5, h6, h7, h8, h9, h10⟩
  unfold processMode
  split
  · split
    · exact moveCursorOriginMode_inv hom _ _
    · split
      · exact h
      · split
        · dsimp only
          split
          · exact saveRestore_inv hua setIt
          · exact hua
        · split
          · exact saveRestore_inv h setIt
          · exact h
  · split
    · exact h
    · exact h

lemma processModes_inv {s : St} (h : Inv s) (priv setIt : Bool) (args : List Int) :
    Inv (processModes s priv setIt args) := by
  unfold processModes
  induction args generalizing s with
  | nil => exact h
  | cons a rest ih => exact ih (processMode_inv h priv setIt a)

lemma machineNormal_inv {s : St} (h : Inv s) : Inv (machineNormal s) := by
  unfold machineNormal
  have htail : ∀ t : St, Inv t →
      Inv (if t.cursor.col = t.cols - 1 then { t with cursor := { t.cursor with wrapNext := true } }
           else moveCursor t (t.cursor.row : Int) ((t.cursor.col : Int) + 1)) := by
    intro t ht
    split
    · exact ht
    · exact moveCursor_inv ht _ _
  apply htail
  split
  · dsimp only
    split
    · exact moveCursor_inv h _ _
    · exact moveCursor_inv (moveCursor_inv h _ _) _ _
  · exact h

lemma machineControl_inv {s : St} (h : Inv s) (c : Nat) : Inv (machineControl s c) := by
  unfold machineControl
  split
  · exact tabCursor_inv h _ _
  · split
    · split
      · exact h
      · split
        · split
          · split
            · exact moveCursor_inv h _ _
            · exact h
          · exact h
        · exact moveCursor_inv h _ _
    · split
      · exact moveCursor_inv h _ _
      · split
        · have htail : ∀ t : St, Inv t →
              Inv (if t.cursor.row = marginEnd t - 1 then t
                   else moveCursor t ((t.cursor.row : Int) + 1) (t.cursor.col : Int)) := by
            intro t ht
            split
            · exact ht
            · exact moveCursor_inv ht _ _
          apply htail
          dsimp only
          split
          · exact moveCursor_inv h _ _
          · exact h
        · exact h

lemma machineEscape_inv {s : St} (h : Inv s) (c : Nat) : Inv (machineEscape s c) := by
  unfold machineEscape
  split
  · split
    · exact h
    · exact moveCursor_inv h _ _
  · split
    · have hmoved := moveCursor_inv h (s.cursor.row : Int) 0
      dsimp only
      split
      · exact hmoved
      · exact moveCursor_inv hmoved _ _
    · split
      · exact h
      · split
        · split
          · exact h
          · exact moveCursor_inv h _ _
        · split
          · exact resetAll_inv h
          · split
            · exact save_inv h
            · split
              · exact restore_inv h
              · exact h

lemma machineCsi_inv {s : St} (h : Inv s) (priv : Bool) (args : List Int) (mode : Nat) :
    Inv (machineCsi s priv args mode) := by
  unfold machineCsi
  split
  all_goals
    first
      | exact h
      | exact moveCursor_inv h _ _
      | exact moveCursorOriginMode_inv h _ _
      | exact tabCursor_inv h _ _
      | exact processModes_inv h _ _ _
      | exact csiDecstbm_inv h _ _
      | exact savedPos_inv h
      | ((repeat' split) <;>
          first
            | exact h
            | exact moveCursor_inv h _ _)

lemma resize_inv {s : St} (h : Inv s) {r c : Nat} (hr : 0 < r) (hc : 0 < c) :
    Inv (resize s r c) := by
  obtain ⟨h1, h2, h3, h4, h5, h6, h7, h8, h9, h10⟩ := h
  unfold resize Inv
  dsimp only
  repeat' split
  all_goals refine ⟨hr, hc, hr, le_refl r, hr, le_refl r, ?_, ?_, ?_, ?_⟩ <;>
    dsimp only <;> omega

lemma step_inv {s : St} (h : Inv s) (op : Op) (hop : OpValid op) : Inv (step s op) := by
  cases op with
  | normal => exact machineNormal_inv h
  | control c => exact machineControl_inv h c
  | escape c => exact machineEscape_inv h c
  | csi priv args mode => exact machineCsi_inv h priv args mode
  | resize r c => exact resize_inv h hop.1 hop.2
  | osc => exact h
  | dcs => exact h
  | special => exact h
  | keyPress => exact h
  | buttonPress => exact h
  | buttonMotion => exact h
  | buttonRelease => exact h
  | scrollWheel => exact h
  | paste => exact h
  | redraw => exact h

lemma run_inv {s : St} (h : Inv s) (ops : List Op)
    (hops : ∀ op ∈ ops, OpValid op) : Inv (run s ops) := by
  unfold run
  induction ops generalizing s with
  | nil => exact h
  | cons op rest ih =>
    exact ih (step_inv h op (hops op (List.mem_cons_self op rest)))
      (fun o ho => hops o (List.mem_cons_of_mem op ho))

lemma initSt_inv {rows cols : Nat} (hr : 0 < rows) (hc : 0 < cols) :
    Inv (initSt rows cols) :=
  ⟨hr, hc, hr, le_refl rows, hr, le_refl rows, hr, hc, hr, hc⟩

end TermM

/-- C1: the cursor-containment invariant — the state built by the
Terminal constructor satisfies it, every public operation (pty event,
resize with positive dimensions, UI event) preserves it, and therefore
after processing any sequence of public operations the cursor satisfies
`0 ≤ row < rows` and `0 ≤ col < cols` (the lower bounds hold by the `Nat`
representation). -/
theorem cursor_containment :
    (∀ rows cols : Nat, 0 < rows → 0 < cols → TermM.Inv (TermM.initSt rows cols)) ∧
    (∀ (s : TermM.St) (op : TermM.Op), TermM.Inv s → TermM.OpValid op →
        TermM.Inv (TermM.step s op) ∧
        (TermM.step s op).cursor.row < (TermM.step s op).rows ∧
        (TermM.step s op).cursor.col < (TermM.step s op).cols) ∧
    (∀ (s : TermM.St) (ops : List TermM.Op), TermM.Inv s →
        (∀ op ∈ ops, TermM.OpValid op) →
        (TermM.run s ops).cursor.row < (TermM.run s ops).rows ∧
        (TermM.run s ops).cursor.col < (TermM.run s ops).cols) := by
  refine ⟨fun rows cols hr hc => TermM.initSt_inv hr hc, ?_, ?_⟩
  · intro s op h hop
    have h2 := TermM.step_inv h op hop
    exact ⟨h2, h2.2.2.2.2.2.2.1, h2.2.2.2.2.2.2.2.1⟩
  · intro s ops h hops
    have h2 := TermM.run_inv h ops hops
    exact ⟨h2.2.2.2.2.2.2.1, h2.2.2.2.2.2.2.2.1⟩

/-- Witness for `cursor_containment`: process a line feed on the 80x24
initial state. -/
theorem cursor_containment_witness :
    TermM.Inv (TermM.step (TermM.initSt 24 80) (TermM.Op.control 10)) ∧
    (TermM.step (TermM.initSt 24 80) (TermM.Op.control 10)).cursor.row <
      (TermM.step (TermM.initSt 24 80) (TermM.Op.control 10)).rows ∧
    (TermM.step (TermM.initSt 24 80) (TermM.Op.control 10)).cursor.col <
      (TermM.step (TermM.initSt 24 80) (TermM.Op.control 10)).cols :=
  cursor_containment.2.1 (TermM.initSt 24 80) (TermM.Op.control 10)
    (by decide) trivial
